import Mathlib

/-!
Verification of the blender-mcp socket bridge.

This file shallowly embeds the core of the repository:

* the JSON framing codec (`serialize` / `tryDecode`), modelling
  `json.dumps` / `json.loads` as used by both sides of the wire
  (`src/blender_mcp/connection.py` and `blender-mcp-addon/server.py`);
* the client-side connection manager
  (`BlenderConnection.send_command` / `receive_full_response` in
  `src/blender_mcp/connection.py`);
* the host-side command dispatcher
  (`BlenderMCPServer.execute_command` / `_execute_command_internal` in
  `blender-mcp-addon/server.py`);
* the host-side server lifecycle state
  (`BlenderMCPServer.start` / `stop` in `blender-mcp-addon/server.py`).

Socket I/O is modelled by an explicit list of receive events; handler
bodies (Blender API calls) are abstracted as functions from a params
value to either a result value or a raised exception message.
-/

namespace BlenderMCP

/-- JSON values, the payloads carried on the wire.  Strings use Lean
`String`; numbers are modelled as integers (the protocol's commands and
envelopes carry no fractional numbers); objects are key/value lists in
insertion order, modelling Python dicts (whose keys are unique). -/
inductive Json where
  | null : Json
  | bool (b : Bool) : Json
  | num (n : Int) : Json
  | str (s : String) : Json
  | arr (elems : List Json) : Json
  | obj (fields : List (String × Json)) : Json

/-- First-match lookup of a key in an object's field list, modelling
`dict.get(key)` (Python dict keys are unique, so first match is the
match). -/
def lookupField (fields : List (String × Json)) (key : String) : Option Json :=
  match fields with
  | [] => none
  | (k, v) :: rest => if k = key then some v else lookupField rest key

/-! ## Framing codec: serializer (`json.dumps`)

Models Python's `json.dumps` with its default separators `", "` and
`": "`.  String escaping covers the quote, backslash, newline, tab and
carriage return; the `\uXXXX` escapes `json.dumps` emits for other
control characters and (with `ensure_ascii`) non-ASCII code points are
not modelled.  Integers are rendered in decimal. -/

/-- The character for a decimal digit value. -/
def digitChar : Nat → Char
  | 0 => '0' | 1 => '1' | 2 => '2' | 3 => '3' | 4 => '4'
  | 5 => '5' | 6 => '6' | 7 => '7' | 8 => '8' | _ => '9'

/-- Decimal digits of `n`, most significant first. -/
def natDigits (n : Nat) : List Char :=
  if _h : n < 10 then [digitChar n]
  else natDigits (n / 10) ++ [digitChar (n % 10)]
termination_by n
decreasing_by
  have : n / 10 < n := Nat.div_lt_self (by omega) (by omega)
  omega

/-- Decimal rendering of an integer, `'-'`-prefixed when negative. -/
def intChars (n : Int) : List Char :=
  if n < 0 then '-' :: natDigits n.natAbs else natDigits n.natAbs

/-- JSON escape of one character inside a string literal. -/
def escapeChar (c : Char) : List Char :=
  if c = '"' then ['\\', '"']
  else if c = '\\' then ['\\', '\\']
  else if c = '\n' then ['\\', 'n']
  else if c = '\t' then ['\\', 't']
  else if c = '\r' then ['\\', 'r']
  else [c]

/-- JSON escape of a string body (without the surrounding quotes). -/
def escapeList : List Char → List Char
  | [] => []
  | c :: cs => escapeChar c ++ escapeList cs

/-- A JSON string literal, quotes included. -/
def serializeStr (s : String) : List Char :=
  '"' :: escapeList s.data ++ ['"']

/-- The rendering of Python `None` / JSON `null`. -/
def litNull : List Char := ['n', 'u', 'l', 'l']

/-- The rendering of JSON `true`. -/
def litTrue : List Char := ['t', 'r', 'u', 'e']

/-- The rendering of JSON `false`. -/
def litFalse : List Char := ['f', 'a', 'l', 's', 'e']

mutual

/-- `json.dumps` on a value, as a character list (the UTF-8 encoding
step is identity at this level of modelling). -/
def serialize : Json → List Char
  | .null => litNull
  | .bool b => if b then litTrue else litFalse
  | .num n => intChars n
  | .str s => serializeStr s
  | .arr es => '[' :: serializeElems es ++ [']']
  | .obj fs => '\x7b' :: serializeFields fs ++ ['\x7d']
termination_by j => sizeOf j

/-- Array elements joined by `json.dumps`'s default `", "` separator. -/
def serializeElems : List Json → List Char
  | [] => []
  | e :: es => serialize e ++ serializeElemsTail es
termination_by es => sizeOf es

/-- The `", "`-prefixed renderings of the elements after the first. -/
def serializeElemsTail : List Json → List Char
  | [] => []
  | e :: es => ',' :: ' ' :: serialize e ++ serializeElemsTail es
termination_by es => sizeOf es

/-- Object members joined by `", "`, each key and value joined by
`": "`. -/
def serializeFields : List (String × Json) → List Char
  | [] => []
  | (k, v) :: fs => serializeStr k ++ ':' :: ' ' :: serialize v
      ++ serializeFieldsTail fs
termination_by fs => sizeOf fs

/-- The `", "`-prefixed renderings of the members after the first. -/
def serializeFieldsTail : List (String × Json) → List Char
  | [] => []
  | (k, v) :: fs => ',' :: ' ' :: serializeStr k ++ ':' :: ' ' :: serialize v
      ++ serializeFieldsTail fs
termination_by fs => sizeOf fs

end

/-! ## Framing codec: parser (`json.loads`)

Models Python's `json.loads` on the fragment of JSON the serializer
emits: literals, integers, strings with the common escapes, arrays and
objects, with arbitrary interleaved whitespace.  A fuel argument bounds
the nesting depth; `tryDecode` supplies fuel larger than the input
length, which bounds any parse. -/

/-- JSON whitespace (the set `json.loads` skips between tokens). -/
def isWsC (c : Char) : Bool :=
  c = ' ' || c = '\n' || c = '\t' || c = '\r'

/-- Drop leading whitespace. -/
def skipWs : List Char → List Char
  | [] => []
  | c :: cs => if isWsC c then skipWs cs else c :: cs

/-- ASCII decimal digit test. -/
def isDigitC (c : Char) : Bool :=
  48 ≤ c.toNat && c.toNat ≤ 57

/-- Numeric value of a digit character. -/
def digitVal (c : Char) : Nat := c.toNat - 48

/-- Value of a most-significant-first digit string. -/
def digitsToNat (ds : List Char) : Nat :=
  ds.foldl (fun a c => a * 10 + digitVal c) 0

/-- Parse a maximal nonempty run of digits as a natural number. -/
def parseNumber (input : List Char) : Option (Nat × List Char) :=
  match input.takeWhile isDigitC with
  | [] => none
  | ds => some (digitsToNat ds, input.dropWhile isDigitC)

/-- Inverse of `escapeChar` on the character after a backslash. -/
def unescapeChar (c : Char) : Option Char :=
  if c = '"' then some '"'
  else if c = '\\' then some '\\'
  else if c = 'n' then some '\n'
  else if c = 't' then some '\t'
  else if c = 'r' then some '\r'
  else if c = '/' then some '/'
  else none

mutual

/-- Parse a string body up to (and consuming) the closing quote. -/
def parseStringBody : List Char → Option (List Char × List Char)
  | [] => none
  | c :: rest =>
    if c = '"' then some ([], rest)
    else if c = '\\' then parseEscape rest
    else
      match parseStringBody rest with
      | some (s, r) => some (c :: s, r)
      | none => none
termination_by l => sizeOf l

/-- Parse the character after a backslash, then the rest of the string
body. -/
def parseEscape : List Char → Option (List Char × List Char)
  | [] => none
  | e :: rest =>
    match unescapeChar e, parseStringBody rest with
    | some u, some (s, r) => some (u :: s, r)
    | _, _ => none
termination_by l => sizeOf l

end

mutual

/-- Parse one JSON value (leading whitespace allowed). -/
def parseVal : Nat → List Char → Option (Json × List Char)
  | 0, _ => none
  | fuel + 1, input =>
    match skipWs input with
    | [] => none
    | c :: rest =>
      if c = 'n' then
        match rest with
        | 'u' :: 'l' :: 'l' :: r => some (.null, r)
        | _ => none
      else if c = 't' then
        match rest with
        | 'r' :: 'u' :: 'e' :: r => some (.bool true, r)
        | _ => none
      else if c = 'f' then
        match rest with
        | 'a' :: 'l' :: 's' :: 'e' :: r => some (.bool false, r)
        | _ => none
      else if c = '"' then
        match parseStringBody rest with
        | some (s, r) => some (.str (String.mk s), r)
        | none => none
      else if c = '[' then
        match skipWs rest with
        | [] => none
        | c2 :: r =>
          if c2 = ']' then some (.arr [], r)
          else
            match parseElems fuel (c2 :: r) with
            | some (es, r2) => some (.arr es, r2)
            | none => none
      else if c = '\x7b' then
        match skipWs rest with
        | [] => none
        | c2 :: r =>
          if c2 = '\x7d' then some (.obj [], r)
          else
            match parseFields fuel (c2 :: r) with
            | some (fs, r2) => some (.obj fs, r2)
            | none => none
      else if c = '-' then
        match parseNumber rest with
        | some (n, r) => some (.num (-(n : Int)), r)
        | none => none
      else
        match parseNumber (c :: rest) with
        | some (n, r) => some (.num (n : Int), r)
        | none => none

/-- Parse the elements of a nonempty array, consuming the closing
bracket. -/
def parseElems : Nat → List Char → Option (List Json × List Char)
  | 0, _ => none
  | fuel + 1, input =>
    match parseVal fuel input with
    | none => none
    | some (v, r) =>
      match skipWs r with
      | ']' :: r2 => some ([v], r2)
      | ',' :: r2 =>
        match parseElems fuel r2 with
        | some (vs, r3) => some (v :: vs, r3)
        | none => none
      | _ => none

/-- Parse the members of a nonempty object, consuming the closing
brace. -/
def parseFields : Nat → List Char → Option (List (String × Json) × List Char)
  | 0, _ => none
  | fuel + 1, input =>
    match skipWs input with
    | '"' :: r1 =>
      match parseStringBody r1 with
      | none => none
      | some (k, r2) =>
        match skipWs r2 with
        | ':' :: r3 =>
          match parseVal fuel r3 with
          | none => none
          | some (v, r4) =>
            match skipWs r4 with
            | '\x7d' :: r5 => some ([(String.mk k, v)], r5)
            | ',' :: r5 =>
              match parseFields fuel r5 with
              | some (fs, r6) => some ((String.mk k, v) :: fs, r6)
              | none => none
            | _ => none
        | _ => none
    | _ => none

end

/-- `json.loads`: parse the whole input as one JSON document, allowing
surrounding whitespace and rejecting trailing content. -/
def tryDecode (input : List Char) : Option Json :=
  match parseVal (input.length + 1) input with
  | some (v, r) => if skipWs r = [] then some v else none
  | none => none

/-- `true` when the input does not start with a digit (so a digit run
ending right before it is maximal). -/
def headNotDigit : List Char → Bool
  | [] => true
  | c :: _ => !isDigitC c

/-! ## Round-trip: digits -/

theorem digitChar_digit (n : Nat) (h : n < 10) : isDigitC (digitChar n) = true := by
  rcases n with _|_|_|_|_|_|_|_|_|_|n
  · decide
  · decide
  · decide
  · decide
  · decide
  · decide
  · decide
  · decide
  · decide
  · decide
  · omega

theorem digitVal_digitChar (n : Nat) (h : n < 10) :
    digitVal (digitChar n) = n := by
  rcases n with _|_|_|_|_|_|_|_|_|_|n
  · decide
  · decide
  · decide
  · decide
  · decide
  · decide
  · decide
  · decide
  · decide
  · decide
  · omega

theorem natDigits_ne_nil (n : Nat) : natDigits n ≠ [] := by
  rw [natDigits]
  split <;> simp

theorem natDigits_all_digit (n : Nat) :
    ∀ c ∈ natDigits n, isDigitC c = true := by
  induction n using Nat.strong_induction_on with
  | _ n ih =>
    rw [natDigits]
    split
    · intro c hc
      simp only [List.mem_singleton] at hc
      subst hc
      exact digitChar_digit n (by assumption)
    · intro c hc
      rename_i h
      rcases List.mem_append.mp hc with h1 | h2
      · exact ih (n / 10) (Nat.div_lt_self (by omega) (by omega)) c h1
      · simp only [List.mem_singleton] at h2
        subst h2
        exact digitChar_digit (n % 10) (Nat.mod_lt _ (by omega))

theorem foldl_natDigits (n : Nat) : ∀ a : Nat,
    (natDigits n).foldl (fun a c => a * 10 + digitVal c) a
      = a * 10 ^ (natDigits n).length + n := by
  induction n using Nat.strong_induction_on with
  | _ n ih =>
    intro a
    rw [natDigits]
    split
    · rename_i h
      simp [List.foldl, digitVal_digitChar n h]
    · rename_i h
      rw [List.foldl_append, ih (n / 10) (Nat.div_lt_self (by omega) (by omega)) a]
      simp only [List.foldl, List.length_append, List.length_singleton]
      rw [digitVal_digitChar (n % 10) (Nat.mod_lt _ (by omega))]
      rw [Nat.pow_succ]
      have := Nat.div_add_mod n 10
      ring_nf
      omega

theorem digitsToNat_natDigits (n : Nat) :
    digitsToNat (natDigits n) = n := by
  unfold digitsToNat
  rw [foldl_natDigits n 0]
  simp

theorem takeWhile_append_all {p : Char → Bool} (l r : List Char)
    (hl : ∀ c ∈ l, p c = true)
    (hr : ∀ c, r.head? = some c → p c = false) :
    (l ++ r).takeWhile p = l ∧ (l ++ r).dropWhile p = r := by
  induction l with
  | nil =>
    simp only [List.nil_append]
    cases r with
    | nil => simp
    | cons c cs =>
      have hc := hr c rfl
      constructor
      · simp [List.takeWhile, hc]
      · simp [List.dropWhile, hc]
  | cons c cs ihl =>
    have hc : p c = true := hl c (by simp)
    have hcs : ∀ x ∈ cs, p x = true := fun x hx => hl x (by simp [hx])
    obtain ⟨h1, h2⟩ := ihl hcs
    constructor
    · simp [List.takeWhile, hc, h1]
    · simp [List.dropWhile, hc, h2]

theorem parseNumber_natDigits (n : Nat) (rest : List Char)
    (hr : headNotDigit rest = true) :
    parseNumber (natDigits n ++ rest) = some (n, rest) := by
  have hr' : ∀ c, rest.head? = some c → isDigitC c = false := by
    intro c hc
    cases rest with
    | nil => simp at hc
    | cons d ds =>
      simp only [List.head?_cons, Option.some.injEq] at hc
      subst hc
      simpa [headNotDigit] using hr
  obtain ⟨htake, hdrop⟩ :=
    takeWhile_append_all (natDigits n) rest (natDigits_all_digit n) hr'
  obtain ⟨d, ds, hd⟩ : ∃ d ds, natDigits n = d :: ds := by
    cases h : natDigits n with
    | nil => exact absurd h (natDigits_ne_nil n)
    | cons d ds => exact ⟨d, ds, rfl⟩
  unfold parseNumber
  rw [htake, hdrop, hd]
  simp only []
  rw [← hd, digitsToNat_natDigits]

/-! ## Round-trip: strings -/

theorem parseStringBody_escape (cs : List Char) (rest : List Char) :
    parseStringBody (escapeList cs ++ '"' :: rest) = some (cs, rest) := by
  induction cs with
  | nil =>
    rw [show escapeList [] ++ '"' :: rest = '"' :: rest by simp [escapeList]]
    rw [parseStringBody]
    simp
  | cons c cs ih =>
    by_cases h1 : c = '"'
    · subst h1
      rw [show escapeList ('"' :: cs) ++ '"' :: rest
            = '\\' :: '"' :: (escapeList cs ++ '"' :: rest) by
          simp [escapeList, escapeChar]]
      rw [parseStringBody, parseEscape]
      simp [unescapeChar, ih]
    · by_cases h2 : c = '\\'
      · subst h2
        rw [show escapeList ('\\' :: cs) ++ '"' :: rest
              = '\\' :: '\\' :: (escapeList cs ++ '"' :: rest) by
            simp [escapeList, escapeChar]]
        rw [parseStringBody, parseEscape]
        simp [unescapeChar, ih]
      · by_cases h3 : c = '\n'
        · subst h3
          rw [show escapeList ('\n' :: cs) ++ '"' :: rest
                = '\\' :: 'n' :: (escapeList cs ++ '"' :: rest) by
              simp [escapeList, escapeChar]]
          rw [parseStringBody, parseEscape]
          simp [unescapeChar, ih]
        · by_cases h4 : c = '\t'
          · subst h4
            rw [show escapeList ('\t' :: cs) ++ '"' :: rest
                  = '\\' :: 't' :: (escapeList cs ++ '"' :: rest) by
                simp [escapeList, escapeChar]]
            rw [parseStringBody, parseEscape]
            simp [unescapeChar, ih]
          · by_cases h5 : c = '\r'
            · subst h5
              rw [show escapeList ('\r' :: cs) ++ '"' :: rest
                    = '\\' :: 'r' :: (escapeList cs ++ '"' :: rest) by
                  simp [escapeList, escapeChar]]
              rw [parseStringBody, parseEscape]
              simp [unescapeChar, ih]
            · have he : escapeChar c = [c] := by
                simp [escapeChar, h1, h2, h3, h4, h5]
              rw [show escapeList (c :: cs) ++ '"' :: rest
                    = c :: (escapeList cs ++ '"' :: rest) by
                  simp [escapeList, he]]
              rw [parseStringBody, if_neg h1, if_neg h2, ih]

/-! ## Round-trip: token shapes -/

theorem digit_not_special (c : Char) (h : isDigitC c = true) :
    c ≠ 'n' ∧ c ≠ 't' ∧ c ≠ 'f' ∧ c ≠ '"' ∧ c ≠ '[' ∧ c ≠ '\x7b' ∧
    c ≠ '-' ∧ isWsC c = false := by
  refine ⟨?_, ?_, ?_, ?_, ?_, ?_, ?_, ?_⟩
  · rintro rfl; exact absurd h (by decide)
  · rintro rfl; exact absurd h (by decide)
  · rintro rfl; exact absurd h (by decide)
  · rintro rfl; exact absurd h (by decide)
  · rintro rfl; exact absurd h (by decide)
  · rintro rfl; exact absurd h (by decide)
  · rintro rfl; exact absurd h (by decide)
  · by_contra hw
    rw [Bool.not_eq_false] at hw
    have hd : ((c = ' ' ∨ c = '\n') ∨ c = '\t') ∨ c = '\r' := by
      simpa [isWsC] using hw
    rcases hd with ((rfl | rfl) | rfl) | rfl <;> exact absurd h (by decide)

theorem natDigits_head (n : Nat) :
    ∃ d ds, natDigits n = d :: ds ∧ isDigitC d = true := by
  obtain ⟨d, ds, hd⟩ : ∃ d ds, natDigits n = d :: ds := by
    cases h : natDigits n with
    | nil => exact absurd h (natDigits_ne_nil n)
    | cons d ds => exact ⟨d, ds, rfl⟩
  exact ⟨d, ds, hd, natDigits_all_digit n d (by rw [hd]; simp)⟩

/-- Every serialized value starts with a non-whitespace character that
is not a closing bracket or brace. -/
theorem serialize_head (v : Json) :
    ∃ c cs, serialize v = c :: cs ∧ isWsC c = false ∧ c ≠ ']' ∧ c ≠ '\x7d' := by
  cases v with
  | null =>
    exact ⟨'n', ['u', 'l', 'l'], by rw [serialize]; rfl, by decide, by decide, by decide⟩
  | bool b =>
    cases b with
    | true =>
      exact ⟨'t', ['r', 'u', 'e'], by rw [serialize]; rfl, by decide, by decide, by decide⟩
    | false =>
      exact ⟨'f', ['a', 'l', 's', 'e'], by rw [serialize]; rfl,
        by decide, by decide, by decide⟩
  | num n =>
    by_cases hn : n < 0
    · refine ⟨'-', natDigits n.natAbs, ?_, by decide, by decide, by decide⟩
      rw [serialize]
      simp [intChars, hn]
    · obtain ⟨d, ds, hd, hdig⟩ := natDigits_head n.natAbs
      refine ⟨d, ds, ?_, (digit_not_special d hdig).2.2.2.2.2.2.2, ?_, ?_⟩
      · rw [serialize]
        simp [intChars, hn, hd]
      · rintro rfl; exact absurd hdig (by decide)
      · rintro rfl; exact absurd hdig (by decide)
  | str s =>
    exact ⟨'"', escapeList s.data ++ ['"'],
      by rw [serialize]; simp [serializeStr], by decide, by decide, by decide⟩
  | arr es =>
    exact ⟨'[', serializeElems es ++ [']'], by rw [serialize]; simp,
      by decide, by decide, by decide⟩
  | obj fs =>
    exact ⟨'\x7b', serializeFields fs ++ ['\x7d'], by rw [serialize]; simp,
      by decide, by decide, by decide⟩

/-! ## Round-trip: whitespace -/

theorem skipWs_cons_not_ws (c : Char) (l : List Char) (h : isWsC c = false) :
    skipWs (c :: l) = c :: l := by
  simp [skipWs, h]

theorem parseVal_ws (fuel : Nat) (c : Char) (l : List Char)
    (h : isWsC c = true) :
    parseVal fuel (c :: l) = parseVal fuel l := by
  cases fuel with
  | zero => rfl
  | succ fuel => rw [parseVal, parseVal, skipWs, if_pos h]

theorem parseElems_ws (fuel : Nat) (c : Char) (l : List Char)
    (h : isWsC c = true) :
    parseElems fuel (c :: l) = parseElems fuel l := by
  cases fuel with
  | zero => rfl
  | succ fuel => rw [parseElems, parseElems, parseVal_ws fuel c l h]

theorem parseFields_ws (fuel : Nat) (c : Char) (l : List Char)
    (h : isWsC c = true) :
    parseFields fuel (c :: l) = parseFields fuel l := by
  cases fuel with
  | zero => rfl
  | succ fuel => rw [parseFields, parseFields, skipWs, if_pos h]

/-! ## Round-trip: a fuel bound on parsing depth -/

mutual

/-- Fuel needed to parse a serialized value. -/
def jsize : Json → Nat
  | .null => 1
  | .bool _ => 1
  | .num _ => 1
  | .str _ => 1
  | .arr es => 1 + jsizeL es
  | .obj fs => 1 + jsizeF fs
termination_by j => sizeOf j

/-- Fuel needed to parse a serialized element list. -/
def jsizeL : List Json → Nat
  | [] => 0
  | e :: es => 1 + jsize e + jsizeL es
termination_by es => sizeOf es

/-- Fuel needed to parse a serialized member list. -/
def jsizeF : List (String × Json) → Nat
  | [] => 0
  | (_, v) :: fs => 1 + jsize v + jsizeF fs
termination_by fs => sizeOf fs

end

theorem jsize_pos (v : Json) : 1 ≤ jsize v := by
  cases v <;> rw [jsize] <;> omega

theorem parseVal_open_bracket (fuel : Nat) (l : List Char) :
    parseVal (fuel + 1) ('[' :: l) =
      match skipWs l with
      | [] => none
      | c2 :: r =>
        if c2 = ']' then some (.arr [], r)
        else
          match parseElems fuel (c2 :: r) with
          | some (es, r2) => some (.arr es, r2)
          | none => none := by
  rw [parseVal]
  rw [skipWs_cons_not_ws '[' _ (by decide)]
  simp

theorem parseVal_open_brace (fuel : Nat) (l : List Char) :
    parseVal (fuel + 1) ('\x7b' :: l) =
      match skipWs l with
      | [] => none
      | c2 :: r =>
        if c2 = '\x7d' then some (.obj [], r)
        else
          match parseFields fuel (c2 :: r) with
          | some (fs, r2) => some (.obj fs, r2)
          | none => none := by
  rw [parseVal]
  rw [skipWs_cons_not_ws '\x7b' _ (by decide)]
  simp

set_option maxHeartbeats 1000000 in
theorem parse_serialize_fuel : ∀ fuel : Nat,
    (∀ v rest, jsize v ≤ fuel → headNotDigit rest = true →
      parseVal fuel (serialize v ++ rest) = some (v, rest)) ∧
    (∀ e es rest, jsizeL (e :: es) ≤ fuel →
      parseElems fuel (serializeElems (e :: es) ++ ']' :: rest) = some (e :: es, rest)) ∧
    (∀ k v fs rest, jsizeF ((k, v) :: fs) ≤ fuel →
      parseFields fuel (serializeFields ((k, v) :: fs) ++ '\x7d' :: rest)
        = some ((k, v) :: fs, rest)) := by
  intro fuel
  induction fuel with
  | zero =>
    refine ⟨?_, ?_, ?_⟩
    · intro v rest hsz _
      exact absurd (le_trans (jsize_pos v) hsz) (by omega)
    · intro e es rest hsz
      rw [jsizeL] at hsz
      omega
    · intro k v fs rest hsz
      rw [jsizeF] at hsz
      omega
  | succ fuel ih =>
    obtain ⟨ihV, ihE, ihF⟩ := ih
    refine ⟨?_, ?_, ?_⟩
    · intro v rest hsz hnd
      cases v with
      | null =>
        rw [serialize, parseVal]
        simp [skipWs, isWsC]
      | bool b =>
        cases b with
        | true =>
          rw [serialize, parseVal]
          simp [skipWs, isWsC]
        | false =>
          rw [serialize, parseVal]
          simp [skipWs, isWsC]
      | num n =>
        by_cases hn : n < 0
        · rw [serialize]
          rw [show intChars n ++ rest = '-' :: (natDigits n.natAbs ++ rest) by
            simp [intChars, hn]]
          rw [parseVal]
          rw [skipWs_cons_not_ws '-' _ (by decide)]
          simp [parseNumber_natDigits n.natAbs rest hnd]
          rw [abs_of_neg hn]
          ring
        · obtain ⟨d, ds, hd, hdig⟩ := natDigits_head n.natAbs
          obtain ⟨h1, h2, h3, h4, h5, h6, h7, h8⟩ := digit_not_special d hdig
          have hpn : parseNumber (d :: (ds ++ rest)) = some (n.natAbs, rest) := by
            rw [show d :: (ds ++ rest) = natDigits n.natAbs ++ rest by rw [hd]; simp]
            exact parseNumber_natDigits _ _ hnd
          rw [serialize]
          rw [show intChars n ++ rest = d :: (ds ++ rest) by simp [intChars, hn, hd]]
          rw [parseVal]
          rw [skipWs_cons_not_ws d _ h8]
          simp [h1, h2, h3, h4, h5, h6, h7, hpn]
          omega
      | str s =>
        rw [serialize]
        rw [show serializeStr s ++ rest = '"' :: (escapeList s.data ++ '"' :: rest) by
          simp [serializeStr]]
        rw [parseVal]
        rw [skipWs_cons_not_ws '"' _ (by decide)]
        simp [parseStringBody_escape]
      | arr es =>
        cases es with
        | nil =>
          rw [serialize, parseVal]
          simp [serializeElems, skipWs, isWsC]
        | cons e es =>
          obtain ⟨c, cs, hc, hnws, hnrb, _⟩ := serialize_head e
          have hE : parseElems fuel (serializeElems (e :: es) ++ ']' :: rest)
              = some (e :: es, rest) := by
            apply ihE
            rw [jsize] at hsz
            omega
          have hshape2 : serializeElems (e :: es) ++ ']' :: rest
              = c :: (cs ++ (serializeElemsTail es ++ ']' :: rest)) := by
            rw [serializeElems, hc]
            simp
          rw [show serialize (Json.arr (e :: es)) ++ rest
              = '[' :: (serializeElems (e :: es) ++ ']' :: rest) by rw [serialize]; simp]
          rw [parseVal_open_bracket]
          rw [hshape2, skipWs_cons_not_ws c _ hnws]
          simp only [if_neg hnrb]
          rw [← hshape2, hE]
      | obj fs =>
        cases fs with
        | nil =>
          rw [serialize, parseVal]
          simp [serializeFields, skipWs, isWsC]
        | cons f fs =>
          obtain ⟨k, v⟩ := f
          have hF : parseFields fuel (serializeFields ((k, v) :: fs) ++ '\x7d' :: rest)
              = some ((k, v) :: fs, rest) := by
            apply ihF
            rw [jsize] at hsz
            omega
          obtain ⟨t, ht⟩ : ∃ t, serializeFields ((k, v) :: fs) ++ '\x7d' :: rest
              = '"' :: t := by
            refine ⟨escapeList k.data
              ++ '"' :: ':' :: ' ' :: (serialize v
                ++ (serializeFieldsTail fs ++ '\x7d' :: rest)), ?_⟩
            rw [serializeFields, serializeStr]
            simp
          rw [show serialize (Json.obj ((k, v) :: fs)) ++ rest
              = '\x7b' :: (serializeFields ((k, v) :: fs) ++ '\x7d' :: rest) by
            rw [serialize]; simp]
          rw [parseVal_open_brace]
          rw [ht, skipWs_cons_not_ws '"' _ (by decide)]
          simp only [if_neg (by decide : ('"' : Char) ≠ '\x7d')]
          rw [← ht, hF]
    · intro e es rest hsz
      have hszE : jsize e ≤ fuel := by rw [jsizeL] at hsz; omega
      cases es with
      | nil =>
        rw [parseElems]
        rw [show serializeElems [e] ++ ']' :: rest = serialize e ++ ']' :: rest by
          rw [serializeElems, serializeElemsTail]; simp]
        rw [ihV e (']' :: rest) hszE rfl]
        simp [skipWs, isWsC]
      | cons e2 es =>
        have hE2 : parseElems fuel (serializeElems (e2 :: es) ++ ']' :: rest)
            = some (e2 :: es, rest) := by
          apply ihE
          rw [jsizeL] at hsz
          omega
        rw [parseElems]
        rw [show serializeElems (e :: e2 :: es) ++ ']' :: rest
            = serialize e ++ (',' :: ' ' :: (serializeElems (e2 :: es) ++ ']' :: rest)) by
          simp [serializeElems, serializeElemsTail]]
        rw [ihV e (',' :: ' ' :: (serializeElems (e2 :: es) ++ ']' :: rest)) hszE rfl]
        simp [skipWs, isWsC, parseElems_ws, hE2]
    · intro k v fs rest hsz
      have hszV : jsize v ≤ fuel := by rw [jsizeF] at hsz; omega
      cases fs with
      | nil =>
        rw [parseFields]
        rw [show serializeFields [(k, v)] ++ '\x7d' :: rest
            = '"' :: (escapeList k.data
                ++ '"' :: (':' :: ' ' :: (serialize v ++ '\x7d' :: rest))) by
          rw [serializeFields, serializeFieldsTail, serializeStr]; simp]
        simp [skipWs, isWsC, parseStringBody_escape, parseVal_ws,
          ihV v ('\x7d' :: rest) hszV rfl]
      | cons f2 fs =>
        obtain ⟨k2, v2⟩ := f2
        have hF2 : parseFields fuel (serializeFields ((k2, v2) :: fs) ++ '\x7d' :: rest)
            = some ((k2, v2) :: fs, rest) := by
          apply ihF
          rw [jsizeF] at hsz
          omega
        rw [parseFields]
        rw [show serializeFields ((k, v) :: (k2, v2) :: fs) ++ '\x7d' :: rest
            = '"' :: (escapeList k.data ++ '"' :: (':' :: ' ' :: (serialize v
                ++ ',' :: ' ' :: (serializeFields ((k2, v2) :: fs) ++ '\x7d' :: rest)))) by
          simp [serializeFields, serializeFieldsTail, serializeStr]]
        simp [skipWs, isWsC, parseStringBody_escape, parseVal_ws, parseFields_ws,
          ihV v (',' :: ' ' :: (serializeFields ((k2, v2) :: fs) ++ '\x7d' :: rest)) hszV rfl,
          hF2]


mutual

theorem jsize_le_len (v : Json) : jsize v ≤ (serialize v).length := by
  cases v with
  | null => rw [jsize, serialize]; decide
  | bool b => cases b <;> rw [jsize, serialize] <;> decide
  | num n =>
    rw [jsize, serialize]
    have : natDigits n.natAbs ≠ [] := natDigits_ne_nil n.natAbs
    unfold intChars
    split <;> cases h : natDigits n.natAbs <;> simp_all
  | str s => rw [jsize, serialize]; simp [serializeStr]
  | arr es =>
    cases es with
    | nil => rw [jsize, jsizeL, serialize]; simp
    | cons e es =>
      have h1 := jsize_le_len e
      have h2 := jsizeLTail_le_len es
      rw [jsize, jsizeL, serialize, serializeElems]
      simp only [List.length_cons, List.length_append, List.length_singleton]
      omega
  | obj fs =>
    cases fs with
    | nil => rw [jsize, jsizeF, serialize]; simp
    | cons f fs =>
      obtain ⟨k, v⟩ := f
      have h1 := jsize_le_len v
      have h2 := jsizeFTail_le_len fs
      rw [jsize, jsizeF, serialize, serializeFields]
      simp only [List.length_cons, List.length_append, List.length_singleton]
      omega
termination_by sizeOf v

theorem jsizeLTail_le_len (es : List Json) :
    jsizeL es ≤ (serializeElemsTail es).length := by
  cases es with
  | nil => rw [jsizeL, serializeElemsTail]; simp
  | cons e es =>
    have h1 := jsize_le_len e
    have h2 := jsizeLTail_le_len es
    rw [jsizeL, serializeElemsTail]
    simp only [List.length_cons, List.length_append]
    omega
termination_by sizeOf es

theorem jsizeFTail_le_len (fs : List (String × Json)) :
    jsizeF fs ≤ (serializeFieldsTail fs).length := by
  cases fs with
  | nil => rw [jsizeF, serializeFieldsTail]; simp
  | cons f fs =>
    obtain ⟨k, v⟩ := f
    have h1 := jsize_le_len v
    have h2 := jsizeFTail_le_len fs
    rw [jsizeF, serializeFieldsTail]
    simp only [List.length_cons, List.length_append]
    omega
termination_by sizeOf fs

end

/-- Round-trip fidelity of the framing codec: `json.loads` of
`json.dumps` returns the value unchanged. -/
theorem tryDecode_serialize (v : Json) : tryDecode (serialize v) = some v := by
  unfold tryDecode
  have h := (parse_serialize_fuel ((serialize v).length + 1)).1 v []
    (by have := jsize_le_len v; omega) rfl
  rw [List.append_nil] at h
  rw [h]
  simp [skipWs]

instance : DecidableEq Json := fun a b =>
  if h : serialize a = serialize b then
    .isTrue (by
      have ha := tryDecode_serialize a
      have hb := tryDecode_serialize b
      rw [h, hb] at ha
      exact (Option.some.inj ha).symm)
  else
    .isFalse (fun he => h (congrArg serialize he))


/-! ## Python value formatting

`str()` of a value as used in exception messages and f-strings.
Containers are rendered via their JSON form; Python's `repr` quoting of
strings nested inside containers is not modelled (no message surfaced by
the bridge carries a container). -/

/-- Python `str()` of a JSON-decoded value. -/
def pyStr : Json → String
  | .null => "None"
  | .bool true => "True"
  | .bool false => "False"
  | .num n => String.mk (intChars n)
  | .str s => s
  | .arr es => String.mk (serialize (.arr es))
  | .obj fs => String.mk (serialize (.obj fs))

/-- Python type name of a value, as it appears in `TypeError` /
`AttributeError` messages. -/
def pyTypeName : Json → String
  | .null => "NoneType"
  | .bool _ => "bool"
  | .num _ => "int"
  | .str _ => "str"
  | .arr _ => "list"
  | .obj _ => "dict"

/-! ## Client: connection manager (`src/blender_mcp/connection.py`)

Socket receive traffic is modelled as a list of events: each `recv`
call either returns bytes (empty bytes meaning the peer closed), times
out, or raises a connection-level error.  `sendall` is modelled as
succeeding; send-side connection errors enter through the same generic
handlers as receive-side ones. -/

/-- One outcome of a `sock.recv` call. -/
inductive RecvEvent where
  | bytes (data : List Char)
  | timeout
  | connError (msg : String)

/-- The outcome of `receive_full_response`: returned data, a raised
`ConnectionError`-family exception, a raised plain `Exception`, or
blocking forever waiting for more events. -/
inductive RecvResult where
  | ok (data : List Char)
  | connErr (msg : String)
  | plainErr (msg : String)
  | blocked
deriving DecidableEq

/-- `receive_full_response` lines 84-92: after the receive loop stops
without a complete parse, return the accumulated bytes if they parse,
otherwise raise. -/
def finishRecv (chunks : List Char) : RecvResult :=
  if chunks ≠ [] then
    if (tryDecode chunks).isSome then .ok chunks
    else .plainErr "Incomplete JSON response received"
  else .plainErr "No data received"

/-- `BlenderConnection.receive_full_response` (lines 49-92): loop over
receive events accumulating chunks; return as soon as the accumulated
bytes parse as one JSON document; on peer close with no data raise; on
peer close or timeout with data fall back to `finishRecv`; propagate
connection-level errors. -/
def receiveLoop : List RecvEvent → List Char → RecvResult
  | [], _ => .blocked
  | .bytes data :: rest, chunks =>
    if data = [] then
      if chunks = [] then .plainErr "Connection closed before receiving any data"
      else finishRecv chunks
    else
      if (tryDecode (chunks ++ data)).isSome then .ok (chunks ++ data)
      else receiveLoop rest (chunks ++ data)
  | .timeout :: _, chunks => finishRecv chunks
  | .connError m :: _, _ => .connErr m

/-- The Python class of a raised exception, as far as `send_command`'s
callers can distinguish it. -/
inductive ExnKind where
  | connectionError
  | plain
deriving DecidableEq

/-- The outcome of `send_command`: a returned result value or a raised
exception (or blocking forever on receive). -/
inductive SendResult where
  | ok (result : Json)
  | err (kind : ExnKind) (msg : String)
  | blocked
deriving DecidableEq

/-- The outcome of one `send_command` call together with the
connection state (`self.sock`) it leaves behind. -/
structure SendOutcome where
  res : SendResult
  sock : Option Nat
deriving DecidableEq

/-- `BlenderConnection.connect` (lines 22-35): keep an existing socket;
otherwise create and connect a new one, clearing the reference on
failure.  Returns the new `self.sock` and the boolean result. -/
def connect (sock0 : Option Nat) (connectOk : Bool) (newSock : Nat) :
    Option Nat × Bool :=
  match sock0 with
  | some s => (some s, true)
  | none => if connectOk then (some newSock, true) else (none, false)

/-- `BlenderConnection.send_command` (lines 94-136).  `commandType` and
`params` shape the frame written by `sendall` (modelled as succeeding);
the reply traffic is `events`.  The error-status branch at line 117
raises a plain `Exception`, which the generic handler at lines 133-136
catches: it clears `self.sock` and re-raises with the
`Communication error with Blender: ` prefix.  The `json.JSONDecodeError`
handler at lines 128-132 (which does not clear `self.sock`) is kept,
although `receive_full_response` only ever returns bytes that parse. -/
def send_command (commandType : String) (params : Json)
    (sock0 : Option Nat) (connectOk : Bool) (newSock : Nat)
    (events : List RecvEvent) : SendOutcome :=
  match connect sock0 connectOk newSock with
  | (sockAfter, false) => ⟨.err .connectionError "Not connected to Blender", sockAfter⟩
  | (none, true) => ⟨.blocked, none⟩
  | (some s, true) =>
    match receiveLoop events [] with
    | .blocked => ⟨.blocked, some s⟩
    | .connErr m => ⟨.err .plain ("Connection to Blender lost: " ++ m), none⟩
    | .plainErr m => ⟨.err .plain ("Communication error with Blender: " ++ m), none⟩
    | .ok data =>
      match tryDecode data with
      | none => ⟨.err .plain "Invalid response from Blender", some s⟩
      | some response =>
        match response with
        | .obj fields =>
          if lookupField fields "status" = some (.str "error") then
            ⟨.err .plain ("Communication error with Blender: "
                ++ pyStr ((lookupField fields "message").getD
                    (.str "Unknown error from Blender"))), none⟩
          else
            ⟨.ok ((lookupField fields "result").getD (.obj [])), some s⟩
        | other =>
          ⟨.err .plain ("Communication error with Blender: "
              ++ pyTypeName other ++ " object has no attribute get"), none⟩

/-! ## Host: command dispatcher (`blender-mcp-addon/server.py`)

Handler bodies are Blender API calls, out of core scope; they are
abstracted as `impl : String → Json → Except String Json`, giving each
handler name its behaviour on a params value — a result value or the
`str()` of a raised exception.  The `scene.blendermcp_use_*` feature
flags are read at dispatch time and are passed as an argument. -/

/-- The `scene.blendermcp_use_*` feature flags as read at one
dispatch. -/
structure FeatureFlags where
  use_polyhaven : Bool
  use_hyper3d : Bool
  use_sketchfab : Bool

/-- The handler names registered unconditionally (lines 170-178). -/
def baseHandlerNames : List String :=
  ["get_scene_info", "get_object_info", "get_viewport_screenshot",
   "execute_code", "get_polyhaven_status", "get_hyper3d_status",
   "get_sketchfab_status"]

/-- Handler names added when `blendermcp_use_polyhaven` is set
(lines 181-189). -/
def polyhavenHandlerNames : List String :=
  ["get_polyhaven_categories", "search_polyhaven_assets",
   "download_polyhaven_asset", "set_texture"]

/-- Handler names added when `blendermcp_use_hyper3d` is set
(lines 191-198). -/
def hyper3dHandlerNames : List String :=
  ["create_rodin_job", "poll_rodin_job_status", "import_generated_asset"]

/-- Handler names added when `blendermcp_use_sketchfab` is set
(lines 200-206). -/
def sketchfabHandlerNames : List String :=
  ["search_sketchfab_models", "download_sketchfab_model"]

/-- The keys of the `handlers` dict built afresh at each dispatch
(lines 170-206). -/
def handlerNames (flags : FeatureFlags) : List String :=
  baseHandlerNames
    ++ (if flags.use_polyhaven then polyhavenHandlerNames else [])
    ++ (if flags.use_hyper3d then hyper3dHandlerNames else [])
    ++ (if flags.use_sketchfab then sketchfabHandlerNames else [])

/-- `{"status": "success", "result": result}`. -/
def successEnv (result : Json) : Json :=
  .obj [("status", .str "success"), ("result", result)]

/-- `{"status": "error", "message": message}`. -/
def errorEnv (message : String) : Json :=
  .obj [("status", .str "error"), ("message", .str message)]

/-- The f-string rendering of `cmd_type` in the unknown-command
message; a missing `"type"` key is Python `None`. -/
def fmtCmdType : Option Json → String
  | none => "None"
  | some v => pyStr v

/-- `BlenderMCPServer._execute_command_internal` (lines 163-220).
Returns the envelope it produces, or `.error` for an exception that
propagates out of it (to be caught by `execute_command`): the
unguarded `get_polyhaven_status` call at line 167 (which ignores the
command's params), or the `TypeError` from looking up an unhashable
`cmd_type` in the handlers dict.  A string `cmd_type` matching no
handler key, or any hashable non-string `cmd_type` (for which
`handlers.get` finds no entry), yields the unknown-command envelope
with the f-string rendering of `cmd_type`. -/
def execute_command_internal (flags : FeatureFlags)
    (impl : String → Json → Except String Json)
    (command : List (String × Json)) : Except String Json :=
  match lookupField command "type" with
  | some (.str s) =>
    if s = "get_polyhaven_status" then
      match impl "get_polyhaven_status" (.obj []) with
      | .ok r => .ok (successEnv r)
      | .error m => .error m
    else if s ∈ handlerNames flags then
      match impl s ((lookupField command "params").getD (.obj [])) with
      | .ok result => .ok (successEnv result)
      | .error m => .ok (errorEnv m)
    else .ok (errorEnv ("Unknown command type: " ++ s))
  | some (.arr es) => .error ("unhashable type: " ++ pyTypeName (.arr es))
  | some (.obj fs) => .error ("unhashable type: " ++ pyTypeName (.obj fs))
  | other => .ok (errorEnv ("Unknown command type: " ++ fmtCmdType other))

/-- `BlenderMCPServer.execute_command` (lines 155-161): any exception
from the internal dispatch is caught and converted to an error
envelope. -/
def execute_command (flags : FeatureFlags)
    (impl : String → Json → Except String Json)
    (command : List (String × Json)) : Json :=
  match execute_command_internal flags impl command with
  | .ok envelope => envelope
  | .error m => errorEnv m

/-- The envelope for a handler outcome: what the dispatcher's
try/except around `handler(**params)` produces (lines 212-220). -/
def dispatchWrap : Except String Json → Json
  | .ok v => successEnv v
  | .error m => errorEnv m

/-! ## Host: server lifecycle (`BlenderMCPServer.start` / `stop`) -/

/-- The server fields touched by `start` / `stop`: `self.running`,
`self.socket`, `self.server_thread` (lines 27-32). -/
structure ServerState where
  running : Bool
  socket : Option Nat
  server_thread : Option Nat
deriving DecidableEq

/-- The state after `__init__`: not running, no socket, no thread. -/
def serverInit : ServerState := ⟨false, none, none⟩

/-- `BlenderMCPServer.stop` (lines 55-73): clear `running`, close and
drop the socket if set, join and drop the thread if set. -/
def stop (st : ServerState) : ServerState :=
  let st1 : ServerState := { st with running := false }
  let st2 : ServerState :=
    if st1.socket.isSome then { st1 with socket := none } else st1
  if st2.server_thread.isSome then { st2 with server_thread := none } else st2

/-- `BlenderMCPServer.start` (lines 34-53): no-op if already running;
otherwise set `running`, create the listening socket, and either bind
and spawn the accept thread (`bindOk`) or fall into the exception
handler, which calls `stop`. -/
def start (st : ServerState) (bindOk : Bool) (newSock newThread : Nat) :
    ServerState :=
  if st.running then st
  else
    let st1 : ServerState := { st with running := true, socket := some newSock }
    if bindOk then { st1 with server_thread := some newThread }
    else stop st1

/-! ## Behaviour lemmas -/

theorem serialize_ne_nil (v : Json) : serialize v ≠ [] := by
  obtain ⟨c, cs, hc, _, _, _⟩ := serialize_head v
  rw [hc]
  simp

/-- `send_command` on a reply consisting of one full envelope frame. -/
theorem send_command_obj (ct : String) (p : Json) (s n : Nat) (c : Bool)
    (fields : List (String × Json)) :
    send_command ct p (some s) c n [.bytes (serialize (.obj fields))] =
      if lookupField fields "status" = some (.str "error") then
        ⟨.err .plain ("Communication error with Blender: "
            ++ pyStr ((lookupField fields "message").getD
                (.str "Unknown error from Blender"))), none⟩
      else ⟨.ok ((lookupField fields "result").getD (.obj [])), some s⟩ := by
  have hne : serialize (Json.obj fields) ≠ [] := serialize_ne_nil _
  have hdec : tryDecode (serialize (Json.obj fields)) = some (.obj fields) :=
    tryDecode_serialize _
  unfold send_command connect receiveLoop
  simp [hne, hdec]

theorem lookupField_append_none (fields l2 : List (String × Json)) (key : String)
    (h : lookupField fields key = none) :
    lookupField (fields ++ l2) key = lookupField l2 key := by
  induction fields with
  | nil => simp
  | cons f fs ih =>
    obtain ⟨k, v⟩ := f
    rw [lookupField] at h
    by_cases hk : k = key
    · simp [hk] at h
    · rw [List.cons_append, lookupField, if_neg hk]
      exact ih (by rwa [if_neg hk] at h)

theorem lookupField_append_some (fields l2 : List (String × Json))
    (key : String) (v : Json) (h : lookupField fields key = some v) :
    lookupField (fields ++ l2) key = some v := by
  induction fields with
  | nil => simp [lookupField] at h
  | cons f fs ih =>
    obtain ⟨k, w⟩ := f
    rw [lookupField] at h
    by_cases hk : k = key
    · rw [if_pos hk] at h
      rw [List.cons_append, lookupField, if_pos hk]
      exact h
    · rw [if_neg hk] at h
      rw [List.cons_append, lookupField, if_neg hk]
      exact ih h

/-- The dispatcher on a well-shaped command `{"type": s, "params": p}`. -/
theorem execute_command_type (flags : FeatureFlags)
    (impl : String → Json → Except String Json) (p : Json) (s : String) :
    execute_command flags impl [("type", .str s), ("params", p)] =
      if s = "get_polyhaven_status" then dispatchWrap (impl s (.obj []))
      else if s ∈ handlerNames flags then dispatchWrap (impl s p)
      else errorEnv ("Unknown command type: " ++ s) := by
  by_cases hg : s = "get_polyhaven_status"
  · subst hg
    cases h : impl "get_polyhaven_status" (.obj []) <;>
      simp [execute_command, execute_command_internal, lookupField, h, dispatchWrap]
  · by_cases hm : s ∈ handlerNames flags
    · cases h : impl s p <;>
        simp [execute_command, execute_command_internal, lookupField, hg, hm, h,
          dispatchWrap]
    · simp [execute_command, execute_command_internal, lookupField, hg, hm,
        dispatchWrap]


theorem mem_handlerNames_base (flags : FeatureFlags) (s : String)
    (h : s ∈ baseHandlerNames) : s ∈ handlerNames flags := by
  unfold handlerNames
  exact List.mem_append_left _ (List.mem_append_left _ (List.mem_append_left _ h))

theorem mem_handlerNames_polyhaven (flags : FeatureFlags) :
    ("download_polyhaven_asset" ∈ handlerNames flags) ↔ flags.use_polyhaven = true := by
  obtain ⟨ph, h3, sf⟩ := flags
  cases ph <;> cases h3 <;> cases sf <;> decide

theorem mem_handlerNames_hyper3d (flags : FeatureFlags) :
    ("create_rodin_job" ∈ handlerNames flags) ↔ flags.use_hyper3d = true := by
  obtain ⟨ph, h3, sf⟩ := flags
  cases ph <;> cases h3 <;> cases sf <;> decide

theorem mem_handlerNames_sketchfab (flags : FeatureFlags) :
    ("search_sketchfab_models" ∈ handlerNames flags) ↔ flags.use_sketchfab = true := by
  obtain ⟨ph, h3, sf⟩ := flags
  cases ph <;> cases h3 <;> cases sf <;> decide

/-- Dispatch of a feature-gated command type: routed to its handler
exactly when its flag is set at this dispatch. -/
theorem gated_dispatch (flags : FeatureFlags)
    (impl : String → Json → Except String Json) (p : Json) (s : String)
    (flag : Bool) (hs : s ≠ "get_polyhaven_status")
    (hmem : s ∈ handlerNames flags ↔ flag = true) :
    execute_command flags impl [("type", .str s), ("params", p)]
      = if flag then dispatchWrap (impl s p)
        else errorEnv ("Unknown command type: " ++ s) := by
  rw [execute_command_type, if_neg hs]
  cases hf : flag
  · rw [if_neg (fun hm => by simpa [hf] using hmem.mp hm)]
    simp
  · rw [if_pos (hmem.mpr hf)]
    simp

/-- Every dispatch produces an envelope or a propagating exception
message; no other shape is possible. -/
theorem execute_command_internal_shape (flags : FeatureFlags)
    (impl : String → Json → Except String Json)
    (command : List (String × Json)) :
    (∃ m, execute_command_internal flags impl command = .error m)
    ∨ (∃ m, execute_command_internal flags impl command = .ok (errorEnv m))
    ∨ (∃ v, execute_command_internal flags impl command = .ok (successEnv v)) := by
  unfold execute_command_internal
  repeat' split
  all_goals first
    | exact Or.inl ⟨_, rfl⟩
    | exact Or.inr (Or.inl ⟨_, rfl⟩)
    | exact Or.inr (Or.inr ⟨_, rfl⟩)

/-! ## Concrete instantiations used by witnesses -/

/-- All feature flags enabled. -/
def allFlags : FeatureFlags := ⟨true, true, true⟩

/-- A handler assignment that echoes its params value. -/
def echoImpl : String → Json → Except String Json := fun _ p => .ok p

/-- A handler assignment that raises on every call. -/
def boomImpl : String → Json → Except String Json := fun _ _ => .error "boom"

/-! ## Claims -/

/-- C1 (corrected), counterexample to the claim as stated: for the
error envelope `{"status": "error", "message": "Unknown command type:
bogus_command"}`, `send_command` raises with the message wrapped in the
`Communication error with Blender: ` prefix, not with exactly the
envelope's message. -/
theorem claim_C1_counterexample :
    (send_command "bogus_command" (Json.obj []) (some 0) true 0
        [.bytes (serialize (errorEnv "Unknown command type: bogus_command"))]).res
      = .err .plain
          "Communication error with Blender: Unknown command type: bogus_command"
    ∧ (send_command "bogus_command" (Json.obj []) (some 0) true 0
        [.bytes (serialize (errorEnv "Unknown command type: bogus_command"))]).res
      ≠ .err .plain "Unknown command type: bogus_command"
    ∧ (send_command "bogus_command" (Json.obj []) (some 0) true 0
        [.bytes (serialize (errorEnv "Unknown command type: bogus_command"))]).res
      ≠ .err .connectionError "Unknown command type: bogus_command" := by
  have h := send_command_obj "bogus_command" (Json.obj []) 0 0 true
    [("status", .str "error"),
     ("message", .str "Unknown command type: bogus_command")]
  rw [show errorEnv "Unknown command type: bogus_command"
      = Json.obj [("status", .str "error"),
          ("message", .str "Unknown command type: bogus_command")] from rfl]
  rw [h]
  refine ⟨by simp [lookupField, pyStr], by simp [lookupField, pyStr], by simp [lookupField]⟩

/-- C1 (amended): when the host replies with the error envelope
`{"status": "error", "message": m}`, `send_command` raises a plain
failure whose message is `m` prefixed with
`Communication error with Blender: `. -/
theorem claim_C1_holds (ct : String) (p : Json) (s n : Nat) (m : String) :
    (send_command ct p (some s) true n [.bytes (serialize (errorEnv m))]).res
      = .err .plain ("Communication error with Blender: " ++ m) := by
  rw [show errorEnv m = Json.obj [("status", .str "error"), ("message", .str m)] from rfl]
  rw [send_command_obj]
  simp [lookupField, pyStr]

/-- C2 (corrected), counterexample to the claim as stated: after the
error-envelope raise, the cached socket reference is cleared, not
preserved. -/
theorem claim_C2_counterexample :
    (send_command "bogus_command" (Json.obj []) (some 0) true 0
        [.bytes (serialize (errorEnv "Unknown command type: bogus_command"))]).sock
      = none
    ∧ (send_command "bogus_command" (Json.obj []) (some 0) true 0
        [.bytes (serialize (errorEnv "Unknown command type: bogus_command"))]).sock
      ≠ some 0 := by
  rw [show errorEnv "Unknown command type: bogus_command"
      = Json.obj [("status", .str "error"),
          ("message", .str "Unknown command type: bogus_command")] from rfl]
  rw [send_command_obj "bogus_command" (Json.obj []) 0 0 true]
  refine ⟨by simp [lookupField], by simp [lookupField]⟩

/-- C2 (amended): a well-formed error-status envelope is routed
through the generic exception handler, which clears the cached socket
reference, so the next call must attempt a fresh connect. -/
theorem claim_C2_holds (ct : String) (p : Json) (s n : Nat) (m : String) :
    (send_command ct p (some s) true n [.bytes (serialize (errorEnv m))]).sock
      = none := by
  rw [show errorEnv m = Json.obj [("status", .str "error"), ("message", .str m)] from rfl]
  rw [send_command_obj]
  simp [lookupField]

/-- C5: round-trip fidelity of the framing codec — `json.loads` of
`json.dumps` of any command or envelope value returns the value
unchanged. -/
theorem claim_C5_holds (v : Json) : tryDecode (serialize v) = some v :=
  tryDecode_serialize v

/-- C9: a response envelope whose status is not `"error"` and which has
no `"result"` key makes `send_command` return the empty mapping, with
the socket kept. -/
theorem claim_C9_holds (ct : String) (p : Json) (s n : Nat)
    (fields : List (String × Json))
    (hstat : lookupField fields "status" ≠ some (.str "error"))
    (hres : lookupField fields "result" = none) :
    send_command ct p (some s) true n [.bytes (serialize (.obj fields))]
      = ⟨.ok (.obj []), some s⟩ := by
  rw [send_command_obj, if_neg hstat, hres]
  rfl

theorem claim_C9_witness :
    send_command "get_scene_info" (Json.obj []) (some 3) true 7
        [.bytes (serialize (.obj [("status", .str "success")]))]
      = ⟨.ok (.obj []), some 3⟩ :=
  claim_C9_holds "get_scene_info" (Json.obj []) 3 7
    [("status", .str "success")]
    (by simp [lookupField]) (by simp [lookupField])

/-- C6: whenever the receive phase fails — connection-level error
(reset / broken pipe), timeout without a parseable accumulation,
peer close before any bytes, or an incomplete/malformed JSON
accumulation — `send_command` clears the cached socket reference and
raises, with no retry in the same call. -/
theorem claim_C6_holds (ct : String) (p : Json) (s n : Nat)
    (events : List RecvEvent) (m : String) :
    (receiveLoop events [] = .connErr m →
      send_command ct p (some s) true n events
        = ⟨.err .plain ("Connection to Blender lost: " ++ m), none⟩)
    ∧ (receiveLoop events [] = .plainErr m →
      send_command ct p (some s) true n events
        = ⟨.err .plain ("Communication error with Blender: " ++ m), none⟩) := by
  constructor <;> intro h <;> simp [send_command, connect, h]

theorem claim_C6_witness :
    send_command "get_scene_info" (Json.obj []) (some 2) true 9
        [.connError "Connection reset by peer"]
      = ⟨.err .plain "Connection to Blender lost: Connection reset by peer", none⟩
    ∧ send_command "get_scene_info" (Json.obj []) (some 2) true 9 [.timeout]
      = ⟨.err .plain "Communication error with Blender: No data received", none⟩
    ∧ send_command "get_scene_info" (Json.obj []) (some 2) true 9 [.bytes []]
      = ⟨.err .plain
          "Communication error with Blender: Connection closed before receiving any data",
          none⟩
    ∧ send_command "get_scene_info" (Json.obj []) (some 2) true 9
        [.bytes ['\x7b'], .timeout]
      = ⟨.err .plain
          "Communication error with Blender: Incomplete JSON response received",
          none⟩ :=
  ⟨(claim_C6_holds "get_scene_info" (Json.obj []) 2 9
      [.connError "Connection reset by peer"] "Connection reset by peer").1 rfl,
   (claim_C6_holds "get_scene_info" (Json.obj []) 2 9 [.timeout]
      "No data received").2 rfl,
   (claim_C6_holds "get_scene_info" (Json.obj []) 2 9 [.bytes []]
      "Connection closed before receiving any data").2 rfl,
   (claim_C6_holds "get_scene_info" (Json.obj []) 2 9 [.bytes ['\x7b'], .timeout]
      "Incomplete JSON response received").2 rfl⟩

/-- C3: a command whose type matches no handler in the table built for
this dispatch yields the unknown-command error envelope, whatever the
handlers would do. -/
theorem claim_C3_holds (flags : FeatureFlags)
    (impl : String → Json → Except String Json) (p : Json) (s : String)
    (h : s ∉ handlerNames flags) :
    execute_command flags impl [("type", .str s), ("params", p)]
      = errorEnv ("Unknown command type: " ++ s) := by
  have hg : s ≠ "get_polyhaven_status" := by
    intro heq
    subst heq
    exact h (mem_handlerNames_base flags _ (by decide))
  rw [execute_command_type, if_neg hg, if_neg h]

theorem claim_C3_witness :
    execute_command allFlags echoImpl
        [("type", .str "bogus_command"), ("params", .obj [])]
      = errorEnv "Unknown command type: bogus_command" :=
  claim_C3_holds allFlags echoImpl (.obj []) "bogus_command" (by decide)

/-- C4: a registered handler's exception is converted to an error
envelope carrying its message and never propagates; a normal return is
wrapped in a success envelope. -/
theorem claim_C4_holds (flags : FeatureFlags)
    (impl : String → Json → Except String Json) (p : Json) (s : String)
    (h1 : s ∈ handlerNames flags) (h2 : s ≠ "get_polyhaven_status") :
    (∀ m, impl s p = .error m →
      execute_command flags impl [("type", .str s), ("params", p)] = errorEnv m)
    ∧ (∀ v, impl s p = .ok v →
      execute_command flags impl [("type", .str s), ("params", p)]
        = successEnv v) := by
  constructor <;> intro x hx <;>
    rw [execute_command_type, if_neg h2, if_pos h1, hx] <;> rfl

theorem claim_C4_witness :
    execute_command allFlags boomImpl
        [("type", .str "execute_code"), ("params", .obj [])] = errorEnv "boom"
    ∧ execute_command allFlags echoImpl
        [("type", .str "execute_code"), ("params", .null)] = successEnv .null :=
  ⟨(claim_C4_holds allFlags boomImpl (.obj []) "execute_code"
      (by decide) (by decide)).1 "boom" rfl,
   (claim_C4_holds allFlags echoImpl .null "execute_code"
      (by decide) (by decide)).2 .null rfl⟩

/-- C8: the handler table is built from the flags passed to this very
dispatch — each feature-gated command type is routed to its handler
exactly when its flag is set now, and base command types are handled
under any flags (`get_polyhaven_status` through its dedicated early
branch, which ignores the params). -/
theorem claim_C8_holds (flags : FeatureFlags)
    (impl : String → Json → Except String Json) (p : Json) :
    (execute_command flags impl
        [("type", .str "download_polyhaven_asset"), ("params", p)]
      = if flags.use_polyhaven then dispatchWrap (impl "download_polyhaven_asset" p)
        else errorEnv "Unknown command type: download_polyhaven_asset")
    ∧ (execute_command flags impl
        [("type", .str "create_rodin_job"), ("params", p)]
      = if flags.use_hyper3d then dispatchWrap (impl "create_rodin_job" p)
        else errorEnv "Unknown command type: create_rodin_job")
    ∧ (execute_command flags impl
        [("type", .str "search_sketchfab_models"), ("params", p)]
      = if flags.use_sketchfab then dispatchWrap (impl "search_sketchfab_models" p)
        else errorEnv "Unknown command type: search_sketchfab_models")
    ∧ (∀ s, s ∈ baseHandlerNames → s ≠ "get_polyhaven_status" →
      execute_command flags impl [("type", .str s), ("params", p)]
        = dispatchWrap (impl s p))
    ∧ (execute_command flags impl
        [("type", .str "get_polyhaven_status"), ("params", p)]
      = dispatchWrap (impl "get_polyhaven_status" (.obj []))) := by
  refine ⟨?_, ?_, ?_, ?_, ?_⟩
  · exact gated_dispatch flags impl p _ _ (by decide) (mem_handlerNames_polyhaven flags)
  · exact gated_dispatch flags impl p _ _ (by decide) (mem_handlerNames_hyper3d flags)
  · exact gated_dispatch flags impl p _ _ (by decide) (mem_handlerNames_sketchfab flags)
  · intro s h1 h2
    rw [execute_command_type, if_neg h2, if_pos (mem_handlerNames_base flags s h1)]
  · rw [execute_command_type, if_pos rfl]

theorem claim_C8_witness :
    execute_command ⟨true, false, true⟩ echoImpl
        [("type", .str "download_polyhaven_asset"), ("params", .null)]
      = successEnv .null
    ∧ execute_command ⟨false, false, false⟩ echoImpl
        [("type", .str "download_polyhaven_asset"), ("params", .null)]
      = errorEnv "Unknown command type: download_polyhaven_asset"
    ∧ execute_command ⟨false, false, false⟩ echoImpl
        [("type", .str "get_scene_info"), ("params", .null)]
      = successEnv .null :=
  ⟨(claim_C8_holds ⟨true, false, true⟩ echoImpl .null).1,
   (claim_C8_holds ⟨false, false, false⟩ echoImpl .null).1,
   (claim_C8_holds ⟨false, false, false⟩ echoImpl .null).2.2.2.1
     "get_scene_info" (by decide) (by decide)⟩

/-- C10: the dispatcher is total over arbitrary command dicts — a
missing `"type"` key yields `Unknown command type: None`, a missing
`"params"` key behaves as an empty params mapping, and every dispatch
returns an error or success envelope. -/
theorem claim_C10_holds (flags : FeatureFlags)
    (impl : String → Json → Except String Json) :
    (∀ command, lookupField command "type" = none →
      execute_command flags impl command = errorEnv "Unknown command type: None")
    ∧ (∀ command, lookupField command "params" = none →
      execute_command flags impl command
        = execute_command flags impl (command ++ [("params", .obj [])]))
    ∧ (∀ command, (∃ m, execute_command flags impl command = errorEnv m)
        ∨ (∃ v, execute_command flags impl command = successEnv v)) := by
  refine ⟨?_, ?_, ?_⟩
  · intro command h
    simp [execute_command, execute_command_internal, h, fmtCmdType]
  · intro command h
    have ht : lookupField (command ++ [("params", Json.obj [])]) "type"
        = lookupField command "type" := by
      cases hty : lookupField command "type" with
      | none =>
        rw [lookupField_append_none _ _ _ hty]
        simp [lookupField]
      | some v => rw [lookupField_append_some _ _ _ _ hty]
    have hp : lookupField (command ++ [("params", Json.obj [])]) "params"
        = some (.obj []) := by
      rw [lookupField_append_none _ _ _ h]
      simp [lookupField]
    simp [execute_command, execute_command_internal, ht, hp, h]
  · intro command
    rcases execute_command_internal_shape flags impl command with
      ⟨m, h⟩ | ⟨m, h⟩ | ⟨v, h⟩
    · exact Or.inl ⟨m, by simp [execute_command, h]⟩
    · exact Or.inl ⟨m, by simp [execute_command, h]⟩
    · exact Or.inr ⟨v, by simp [execute_command, h]⟩

theorem claim_C10_witness :
    execute_command allFlags echoImpl [("params", .obj [])]
      = errorEnv "Unknown command type: None"
    ∧ execute_command allFlags echoImpl [("type", .str "execute_code")]
      = execute_command allFlags echoImpl
          [("type", .str "execute_code"), ("params", .obj [])]
    ∧ ((∃ m, execute_command allFlags echoImpl [] = errorEnv m)
        ∨ (∃ v, execute_command allFlags echoImpl [] = successEnv v)) :=
  ⟨(claim_C10_holds allFlags echoImpl).1 [("params", .obj [])]
      (by simp [lookupField]),
   (claim_C10_holds allFlags echoImpl).2.1 [("type", .str "execute_code")]
      (by simp [lookupField]),
   (claim_C10_holds allFlags echoImpl).2.2 []⟩

/-- C7: a bind failure during `start` leaves the server state as if
never started (`stop` is invoked), and `stop` on a never-started server
is safe and leaves the same state. -/
theorem claim_C7_holds :
    (∀ st ns nt, st.running = false → start st false ns nt = serverInit)
    ∧ stop serverInit = serverInit := by
  constructor
  · intro st ns nt h
    obtain ⟨r, so, th⟩ := st
    simp only at h
    subst h
    cases th <;> simp [start, stop, serverInit]
  · rfl

theorem claim_C7_witness :
    start serverInit false 5 7 = serverInit ∧ stop serverInit = serverInit :=
  ⟨claim_C7_holds.1 serverInit 5 7 rfl, claim_C7_holds.2⟩

end BlenderMCP
